import Mathlib

/-!
Verification of the terminal fig completion interface
(`getFigSuggestions`, `getFigSpecSuggestions`, `collectCompletionItemResult`,
`addSuggestions`, `getFigSuggestionLabel`, `getFixSuggestionDescription`).

The TypeScript source is embedded shallowly:
* JS strings are Lean `String`; `undefined` fields are `Option`; JS records
  (`Record<string, T>`) are insertion-ordered association lists.
* JS truthiness of the fields the code tests (`generator.template`,
  `item.name`, `specArgs`) is modelled by explicit `truthy` functions on the
  corresponding tagged unions.
* The platform check `osIsWindows()` is fixed to `false` (the POSIX branch of
  the source): the Windows branches differ only in label normalisation.
* External collaborator modules that are not part of the source file
  (`getCommand` from the shell parser and `parseArguments` from the
  autocomplete parser) are passed in as function parameters, matching their
  contracts; `createGeneratorState`/`triggerGenerators` is modelled from the
  spec (see `triggerGenerators` below).
* JS `String.prototype.startsWith` is modelled on character lists.
-/

namespace TermFig

/-- JS `String.prototype.startsWith`: character-sequence prefix test. -/
def jsStartsWith (s p : String) : Bool :=
  p.toList.isPrefixOf s.toList

/-- Fig template tags (`Fig.Template`). -/
inductive Template
  | filepaths
  | folders
  | history
  | help
deriving DecidableEq

/-- The `template` field of a generator: absent, a single tag, or an array of
tags (`Fig.SingleOrArray<Fig.Template>`). -/
inductive TemplateField
  | missing
  | single (t : Template)
  | multiple (ts : List Template)
deriving DecidableEq

/-- JS truthiness of `generator.template` (absent is falsy; a tag or an array,
even an empty array, is truthy). -/
def TemplateField.truthy : TemplateField → Bool
  | .missing => false
  | .single _ => true
  | .multiple _ => true

/-- The array-normalisation at line `const templates = Array.isArray(generator.template) ? generator.template : [generator.template]`
(only reached when the field is truthy). -/
def TemplateField.toList : TemplateField → List Template
  | .missing => []
  | .single t => [t]
  | .multiple ts => ts

/-- The `name` field of a spec, suggestion, option or argument: absent,
a single string, or an array of alias strings. -/
inductive NameField
  | missing
  | str (s : String)
  | strs (ss : List String)
deriving DecidableEq

/-- JS truthiness of `item.name` (absent and the empty string are falsy; an
array, even an empty one, is truthy). -/
def NameField.truthy : NameField → Bool
  | .missing => false
  | .str s => !(s == "")
  | .strs _ => true

/-- A suggestion source entry, `SpecArg = Fig.Arg | Fig.Suggestion | Fig.Option | string`:
either a bare string or an object carrying a `name` and optional `description`
(the only fields the completion code reads). -/
inductive SpecArg
  | str (s : String)
  | obj (name : NameField) (description : Option String)
deriving DecidableEq

/-- JS truthiness of `item.name` for a `SpecArg` (a bare string has no `.name`
property, so the access yields `undefined`, which is falsy). -/
def specArgNameTruthy : SpecArg → Bool
  | .str _ => false
  | .obj n _ => n.truthy

/-- The detail computed by `typeof item === 'string' ? item : item.description`. -/
def specArgDetail : SpecArg → Option String
  | .str s => some s
  | .obj _ d => d

/-- Core of `getFigSuggestionLabel` on the `name` field: a string name yields a
singleton label list, a non-empty alias array yields one label per alias, and
an absent name or empty array yields `undefined`. -/
def getFigSuggestionLabelOfName : NameField → Option (List String)
  | .str s => some [s]
  | .strs [] => none
  | .strs (s :: ss) => some (s :: ss)
  | .missing => none

/-- `getFigSuggestionLabel` applied to a `SpecArg` (a bare string is returned
as a singleton). -/
def getFigSuggestionLabel : SpecArg → Option (List String)
  | .str s => some [s]
  | .obj n _ => getFigSuggestionLabelOfName n

/-- A dynamic suggestion generator attached to an argument. `template` is its
declared template tag; `output` is the (awaited) list of items its execution
contract yields in the context of the current request. Structural equality of
the declared fields is the derived decidable equality. -/
structure Generator where
  template : TemplateField
  output : List SpecArg
deriving DecidableEq

/-- A static suggestion source: an array of entries or a keyed record iterated
in insertion order (`SpecArg[] | Record<string, SpecArg>`). -/
inductive SpecArgs
  | list (l : List SpecArg)
  | record (m : List (String × SpecArg))
deriving DecidableEq

/-- The fields of `Fig.Arg` read by the completion code: the static
`suggestions` source and the declared `generators`. -/
structure FigArg where
  suggestions : Option SpecArgs
  generators : Option (List Generator)
deriving DecidableEq

/-- The `SuggestionFlag` bitset of the parser result, one bit per suggestion
category. -/
structure SuggestionFlags where
  args : Bool
  subcommands : Bool
  options : Bool
deriving DecidableEq

/-- The fields of `ArgumentParserResult` read by the completion code:
`suggestionFlags`, `currentArg`, and the `subcommands`/`options` sources of
`completionObj`. -/
structure ParseResult where
  suggestionFlags : SuggestionFlags
  currentArg : Option FigArg
  completionObjSubcommands : Option SpecArgs
  completionObjOptions : Option SpecArgs
deriving DecidableEq

/-- The kinds of `vscode.TerminalCompletionItemKind` this code uses. -/
inductive ItemKind
  | alias
  | argument
  | method
  | flag
deriving DecidableEq

/-- A completion item as built by `createCompletionItem(cursorPosition, prefix,
{ label }, documentation, detail, kind)`; the fields record the call`s
positional arguments. -/
structure TerminalCompletionItem where
  cursorPosition : Nat
  pfx : String
  label : String
  documentation : Option String
  detail : Option String
  kind : Option ItemKind
deriving DecidableEq

/-- `createCompletionItem`, field-for-field. -/
def createCompletionItem (cursorPosition : Nat) (pfx : String) (label : String)
    (documentation : Option String) (detail : Option String)
    (kind : Option ItemKind) : TerminalCompletionItem :=
  ⟨cursorPosition, pfx, label, documentation, detail, kind⟩

/-- The token type of the word under the cursor (`TokenType`): the command
position or an argument position. -/
inductive TokenType
  | command
  | argument
deriving DecidableEq

/-- The fields of a `Fig.Spec` root read by this code (`name`, `description`).
The grammar below the root is consumed only by the external `parseArguments`. -/
structure FigSpec where
  name : NameField
  description : Option String
deriving DecidableEq

/-- `getFixSuggestionDescription`: the spec description, defaulting to the
empty string. -/
def getFixSuggestionDescription (spec : FigSpec) : String :=
  spec.description.getD ""

/-- `getFigSuggestionLabel` applied to a `Fig.Spec` (a spec is always an
object here, so only its `name` field matters). -/
def figSpecLabels (spec : FigSpec) : Option (List String) :=
  getFigSuggestionLabelOfName spec.name

/-- An available command from the completion resource catalog
(`ICompletionResource`). -/
structure CompletionResource where
  label : String
  kind : Option ItemKind
  detail : Option String
  definitionCommand : Option String
deriving DecidableEq

/-- The parsed command handed to the parser by `getCommand` (opaque to this
file beyond its existence; the shell parser is an external collaborator). -/
structure Command where
  tokens : List String
deriving DecidableEq

/-- The `Fig.ShellContext` built in `getFigSpecSuggestions`. -/
structure ShellContext where
  environmentVariables : List (String × String)
  currentWorkingDirectory : String
  sshPrefix : String
  currentProcess : String
deriving DecidableEq

/-- The terminal context `{ commandLine, cursorPosition }`. -/
structure TerminalContext where
  commandLine : String
  cursorPosition : Nat
deriving DecidableEq

/-- Result record `IFigSpecSuggestionsResult`. -/
structure FigSpecSuggestionsResult where
  filesRequested : Bool
  foldersRequested : Bool
  hasCurrentArg : Bool
  items : List TerminalCompletionItem
deriving DecidableEq

/-- The mutable state of `collectCompletionItemResult`: the two template flags
and the `items` array the code pushes into. -/
structure AddState where
  filesRequested : Bool
  foldersRequested : Bool
  items : List TerminalCompletionItem
deriving DecidableEq

/-- Modelled from the spec: the generator resolution engine reached through
`createGeneratorState(state).triggerGenerators(parsedArguments)`, whose module
is not part of this source file. Per the spec, one resolution pass over the
current argument`s generators (i) skips a generator whose definition is
structurally identical to one already triggered in the pass (`eraseDups` keeps
the first occurrence), (ii) sets flags instead of computing matches for
template generators, so a generator declaring a template is not invoked, and
(iii) invokes each remaining generator`s execution contract, yielding its
awaited items; results keep generator-declaration order. Each returned pair is
one executed generator together with its awaited `request` items. -/
def triggerGenerators (gens : List Generator) : List (Generator × List SpecArg) :=
  gens.eraseDups.filterMap fun g =>
    if g.template.truthy then none else some (g, g.output)

/-- The inner loop over one executed generator result (lines
`for (const item of (await generatorResult?.request) ?? [])` ...): an item with
a falsy `name` is skipped, otherwise one completion item is pushed per label. -/
def generatorResultItems (cursorPosition : Nat) (pfx : String) (kind : ItemKind)
    (out : List SpecArg) : List TerminalCompletionItem :=
  out.flatMap fun item =>
    if !(specArgNameTruthy item) then []
    else
      match getFigSuggestionLabel item with
      | none => []
      | some labels =>
        labels.map fun label =>
          createCompletionItem cursorPosition pfx label none (specArgDetail item) (some kind)

/-- Items pushed by one call of `s.triggerGenerators(parsedArguments)`
followed by the nested result loops. -/
def triggeredItems (cursorPosition : Nat) (pfx : String) (kind : ItemKind)
    (gens : List Generator) : List TerminalCompletionItem :=
  (triggerGenerators gens).flatMap fun r =>
    generatorResultItems cursorPosition pfx kind r.2

/-- The `for (const generator of generators)` loop of `addSuggestions`: per
generator, the template flags are ORed in from that generator`s own `template`
field, then a fresh autocomplete state is created and `triggerGenerators` runs
over the full generator list of the parsed arguments, pushing all resulting
items. `allGens` is that full list; the first list argument is the remaining
iteration. -/
def generatorLoopAux (cursorPosition : Nat) (pfx : String) (kind : ItemKind)
    (allGens : List Generator) : List Generator → AddState → AddState
  | [], st => st
  | g :: gs, st =>
    generatorLoopAux cursorPosition pfx kind allGens gs
      ⟨st.filesRequested || g.template.toList.contains Template.filepaths,
       st.foldersRequested || g.template.toList.contains Template.folders,
       st.items ++ triggeredItems cursorPosition pfx kind allGens⟩

/-- The whole generator section of `addSuggestions` (lines 215-286 of the
source): iterate the declared generators, re-triggering the full list each
time. -/
def generatorLoop (cursorPosition : Nat) (pfx : String) (kind : ItemKind)
    (gens : List Generator) (st : AddState) : AddState :=
  generatorLoopAux cursorPosition pfx kind gens gens st

/-- The static part of `addSuggestions`: a missing source contributes nothing;
an array contributes one item per label of each entry; a record contributes one
item per key in insertion order, the key being the label. -/
def specArgsItems (cursorPosition : Nat) (pfx : String) (kind : ItemKind) :
    Option SpecArgs → List TerminalCompletionItem
  | none => []
  | some (.list l) =>
    l.flatMap fun item =>
      match getFigSuggestionLabel item with
      | none => []
      | some labels =>
        labels.map fun label =>
          createCompletionItem cursorPosition pfx label none (specArgDetail item) (some kind)
  | some (.record m) =>
    m.map fun p =>
      createCompletionItem cursorPosition pfx p.1 none (specArgDetail p.2) (some kind)

/-- The `addSuggestions` closure of `collectCompletionItemResult`. The
generator section runs only when the kind is `Argument` and
`parsedArguments?.currentArg?.generators` is truthy; then the static source is
appended (the early `return` for a missing source leaves the state unchanged,
which `specArgsItems none = []` captures). -/
def addSuggestions (cursorPosition : Nat) (pfx : String)
    (specArgs : Option SpecArgs) (kind : ItemKind) (pa : Option ParseResult)
    (st : AddState) : AddState :=
  let st1 :=
    if kind = ItemKind.argument then
      match pa.bind (fun p => p.currentArg.bind (fun ca => ca.generators)) with
      | some gens => generatorLoop cursorPosition pfx kind gens st
      | none => st
    else st
  ⟨st1.filesRequested, st1.foldersRequested,
   st1.items ++ specArgsItems cursorPosition pfx kind specArgs⟩

/-- `collectCompletionItemResult`: the three guarded `addSuggestions` calls in
source order (Args, then Subcommands, then Options). The `command`, working
directory and environment are threaded to mirror the source signature; the
modelled generator engine consumes them only through each generator`s recorded
`output`. The returned state carries the two flags and the pushed `items`. -/
def collectCompletionItemResult (command : Command) (pa : ParseResult)
    (pfx : String) (ctx : TerminalContext) (cwd : Option String)
    (env : List (String × String)) : AddState :=
  let st0 : AddState := ⟨false, false, []⟩
  let st1 :=
    if pa.suggestionFlags.args then
      addSuggestions ctx.cursorPosition pfx
        (pa.currentArg.bind fun ca => ca.suggestions) .argument (some pa) st0
    else st0
  let st2 :=
    if pa.suggestionFlags.subcommands then
      addSuggestions ctx.cursorPosition pfx pa.completionObjSubcommands .method none st1
    else st1
  if pa.suggestionFlags.options then
    addSuggestions ctx.cursorPosition pfx pa.completionObjOptions .flag none st2
  else st2

/-- The type of the external shell parser`s `getCommand(commandLine, {},
cursorPosition)`: `undefined` when the command line cannot be tokenized. -/
def GetCommandFn := String → Nat → Option Command

/-- The type of the external `parseArguments(command, shellContext, spec)`:
per the spec, `undefined` when the command cannot be matched against the spec
(grammar mismatch), a parse result otherwise. -/
def ParseArgsFn := Command → ShellContext → FigSpec → Option ParseResult

/-- `getFigSpecSuggestions`: tokenize the command line, require a working
directory, parse against the spec, collect items, and return `undefined` when
the cancellation token is set after collection. On grammar mismatch the caller
falls back to no suggestions from this spec (modelled from the spec: the
`parseArguments` module is external and its mismatch behaviour is specified as
returning no parse result). The cancellation token is a constant of the
request, `some true` meaning `isCancellationRequested`. -/
def getFigSpecSuggestions (getCmd : GetCommandFn) (parseArgs : ParseArgsFn)
    (spec : FigSpec) (ctx : TerminalContext) (pfx : String)
    (cwd : Option String) (env : List (String × String)) (name : String)
    (token : Option Bool) : Option FigSpecSuggestionsResult :=
  match getCmd ctx.commandLine ctx.cursorPosition, cwd with
  | some command, some cwdPath =>
    let shellContext : ShellContext := ⟨env, cwdPath, "", name⟩
    match parseArgs command shellContext spec with
    | none => none
    | some pa =>
      let r := collectCompletionItemResult command pa pfx ctx (some cwdPath) env
      if token == some true then none
      else some ⟨r.filesRequested, r.foldersRequested, pa.currentArg.isSome, r.items⟩
  | _, _ => none

/-- The body of the inner `for (const specLabel of specLabels)` loop of
`getFigSuggestions` (POSIX branch of the platform checks), as a transformer of
the accumulated result: look up an available command whose label starts with
the spec label; skip when absent or cancelled; in command position push one
item unless the available command is an alias; otherwise require the preceding
text to start with a matched command-or-alias label followed by a space, then
merge the per-spec suggestions. -/
def specLabelStep (getCmd : GetCommandFn) (parseArgs : ParseArgsFn)
    (ctx : TerminalContext) (availableCommands : List CompletionResource)
    (pfx : String) (tokenType : TokenType) (cwd : Option String)
    (env : List (String × String)) (name : String) (precedingText : String)
    (token : Option Bool) (spec : FigSpec) (specLabel : String)
    (acc : FigSpecSuggestionsResult) : FigSpecSuggestionsResult :=
  match availableCommands.find? (fun c => jsStartsWith c.label specLabel) with
  | none => acc
  | some availableCommand =>
    if token == some true then acc
    else if tokenType == TokenType.command then
      if availableCommand.kind == some ItemKind.alias then acc
      else
        ⟨acc.filesRequested, acc.foldersRequested, acc.hasCurrentArg,
         acc.items ++ [createCompletionItem ctx.cursorPosition pfx specLabel
           (some (getFixSuggestionDescription spec)) availableCommand.detail none]⟩
    else
      let commandAndAliases := availableCommands.filter fun c =>
        specLabel == c.definitionCommand.getD c.label
      if !(commandAndAliases.any fun e => jsStartsWith precedingText (e.label ++ " ")) then
        acc
      else
        match getFigSpecSuggestions getCmd parseArgs spec ctx pfx cwd env name token with
        | none => acc
        | some r =>
          ⟨acc.filesRequested || r.filesRequested,
           acc.foldersRequested || r.foldersRequested,
           acc.hasCurrentArg || r.hasCurrentArg,
           acc.items ++ r.items⟩

/-- The iteration domain of the two nested loops of `getFigSuggestions`: one
pair per spec label, in spec order (a spec without labels is skipped). -/
def specLabelPairs (specs : List FigSpec) : List (FigSpec × String) :=
  specs.flatMap fun spec =>
    match figSpecLabels spec with
    | none => []
    | some labels => labels.map fun l => (spec, l)

/-- The empty result `getFigSuggestions` starts from. -/
def emptyResult : FigSpecSuggestionsResult := ⟨false, false, false, []⟩

/-- `getFigSuggestions`: fold the per-label step over every spec label, in
order, starting from the empty result. -/
def getFigSuggestions (getCmd : GetCommandFn) (parseArgs : ParseArgsFn)
    (specs : List FigSpec) (ctx : TerminalContext)
    (availableCommands : List CompletionResource) (pfx : String)
    (tokenType : TokenType) (cwd : Option String)
    (env : List (String × String)) (name : String) (precedingText : String)
    (token : Option Bool) : FigSpecSuggestionsResult :=
  (specLabelPairs specs).foldl
    (fun acc p =>
      specLabelStep getCmd parseArgs ctx availableCommands pfx tokenType cwd env
        name precedingText token p.1 p.2 acc)
    emptyResult

/-- The contribution of a single spec label on its own: the step applied to the
empty result. -/
def specLabelDelta (getCmd : GetCommandFn) (parseArgs : ParseArgsFn)
    (ctx : TerminalContext) (availableCommands : List CompletionResource)
    (pfx : String) (tokenType : TokenType) (cwd : Option String)
    (env : List (String × String)) (name : String) (precedingText : String)
    (token : Option Bool) (spec : FigSpec) (specLabel : String) :
    FigSpecSuggestionsResult :=
  specLabelStep getCmd parseArgs ctx availableCommands pfx tokenType cwd env
    name precedingText token spec specLabel emptyResult

/-- Merge of two results: flags by disjunction, items by concatenation (the
`||=` and `push(...)` updates of the source loop). -/
def mergeResult (a b : FigSpecSuggestionsResult) : FigSpecSuggestionsResult :=
  ⟨a.filesRequested || b.filesRequested,
   a.foldersRequested || b.foldersRequested,
   a.hasCurrentArg || b.hasCurrentArg,
   a.items ++ b.items⟩

/-- The generators whose execution contract is invoked across the whole
generator loop of `addSuggestions`, one list entry per invocation: each outer
iteration re-triggers the full (deduplicated) generator list. -/
def executedGenerators (gens : List Generator) : List Generator :=
  gens.flatMap fun _ => (triggerGenerators gens).map Prod.fst

/-- The generator list the `addSuggestions` generator section iterates over:
non-empty only for the `Argument` kind with a truthy
`parsedArguments?.currentArg?.generators`. -/
def argumentGenerators (kind : ItemKind) (pa : Option ParseResult) : List Generator :=
  if kind = ItemKind.argument then
    (pa.bind fun p => p.currentArg.bind fun ca => ca.generators).getD []
  else []

theorem generatorLoopAux_files (c : Nat) (p : String) (k : ItemKind)
    (allGens : List Generator) (l : List Generator) (st : AddState) :
    (generatorLoopAux c p k allGens l st).filesRequested =
      (st.filesRequested || l.any fun g => g.template.toList.contains Template.filepaths) := by
  induction l generalizing st with
  | nil => simp [generatorLoopAux]
  | cons g gs ih => simp [generatorLoopAux, ih, Bool.or_assoc]

theorem generatorLoopAux_folders (c : Nat) (p : String) (k : ItemKind)
    (allGens : List Generator) (l : List Generator) (st : AddState) :
    (generatorLoopAux c p k allGens l st).foldersRequested =
      (st.foldersRequested || l.any fun g => g.template.toList.contains Template.folders) := by
  induction l generalizing st with
  | nil => simp [generatorLoopAux]
  | cons g gs ih => simp [generatorLoopAux, ih, Bool.or_assoc]

theorem generatorLoopAux_items (c : Nat) (p : String) (k : ItemKind)
    (allGens : List Generator) (l : List Generator) (st : AddState) :
    (generatorLoopAux c p k allGens l st).items =
      st.items ++ (l.flatMap fun _ => triggeredItems c p k allGens) := by
  induction l generalizing st with
  | nil => simp [generatorLoopAux]
  | cons g gs ih => simp [generatorLoopAux, ih]

/-- Closed form of `addSuggestions`: the flags are ORed with the template tags
of the iterated generators, and the items grow by one full re-trigger per
iterated generator followed by the static source. -/
theorem addSuggestions_spec (c : Nat) (p : String) (sa : Option SpecArgs)
    (k : ItemKind) (pa : Option ParseResult) (st : AddState) :
    addSuggestions c p sa k pa st =
      ⟨st.filesRequested ||
         ((argumentGenerators k pa).any fun g => g.template.toList.contains Template.filepaths),
       st.foldersRequested ||
         ((argumentGenerators k pa).any fun g => g.template.toList.contains Template.folders),
       st.items ++
         ((argumentGenerators k pa).flatMap fun _ =>
           triggeredItems c p k (argumentGenerators k pa)) ++
         specArgsItems c p k sa⟩ := by
  unfold addSuggestions argumentGenerators
  by_cases hk : k = ItemKind.argument
  · subst hk
    cases hg : pa.bind fun pr => pr.currentArg.bind fun ca => ca.generators with
    | none => simp [hg]
    | some gens =>
      simp [hg, generatorLoop, generatorLoopAux_files, generatorLoopAux_folders,
        generatorLoopAux_items]
  · simp [hk]

theorem collect_files (command : Command) (pa : ParseResult) (pfx : String)
    (ctx : TerminalContext) (cwd : Option String) (env : List (String × String)) :
    (collectCompletionItemResult command pa pfx ctx cwd env).filesRequested =
      (pa.suggestionFlags.args &&
        ((argumentGenerators ItemKind.argument (some pa)).any fun g =>
          g.template.toList.contains Template.filepaths)) := by
  unfold collectCompletionItemResult
  cases ha : pa.suggestionFlags.args <;>
    cases hs : pa.suggestionFlags.subcommands <;>
      cases ho : pa.suggestionFlags.options <;>
        simp [ha, hs, ho, addSuggestions_spec, argumentGenerators]

theorem collect_folders (command : Command) (pa : ParseResult) (pfx : String)
    (ctx : TerminalContext) (cwd : Option String) (env : List (String × String)) :
    (collectCompletionItemResult command pa pfx ctx cwd env).foldersRequested =
      (pa.suggestionFlags.args &&
        ((argumentGenerators ItemKind.argument (some pa)).any fun g =>
          g.template.toList.contains Template.folders)) := by
  unfold collectCompletionItemResult
  cases ha : pa.suggestionFlags.args <;>
    cases hs : pa.suggestionFlags.subcommands <;>
      cases ho : pa.suggestionFlags.options <;>
        simp [ha, hs, ho, addSuggestions_spec, argumentGenerators]

theorem template_generator_not_executed (g : Generator) (gens : List Generator)
    (h : g.template.truthy = true) : g ∉ executedGenerators gens := by
  intro hmem
  rw [executedGenerators, List.mem_flatMap] at hmem
  obtain ⟨x, hx, hg⟩ := hmem
  rw [List.mem_map] at hg
  obtain ⟨r, hr, hrg⟩ := hg
  rw [triggerGenerators, List.mem_filterMap] at hr
  obtain ⟨a, ha, hfa⟩ := hr
  by_cases hta : a.template.truthy = true
  · simp [hta] at hfa
  · simp [hta] at hfa
    rw [← hfa] at hrg
    rw [show ((a, a.output).1 = a) from rfl] at hrg
    rw [hrg] at hta
    exact hta h

theorem mergeResult_empty_left (b : FigSpecSuggestionsResult) :
    mergeResult emptyResult b = b := by
  simp [mergeResult, emptyResult]

theorem mergeResult_empty_right (a : FigSpecSuggestionsResult) :
    mergeResult a emptyResult = a := by
  simp [mergeResult, emptyResult]

theorem mergeResult_assoc (a b c : FigSpecSuggestionsResult) :
    mergeResult (mergeResult a b) c = mergeResult a (mergeResult b c) := by
  simp [mergeResult, Bool.or_assoc]

theorem specLabelStep_delta (getCmd : GetCommandFn) (parseArgs : ParseArgsFn)
    (ctx : TerminalContext) (availableCommands : List CompletionResource)
    (pfx : String) (tokenType : TokenType) (cwd : Option String)
    (env : List (String × String)) (name : String) (precedingText : String)
    (token : Option Bool) (spec : FigSpec) (specLabel : String)
    (acc : FigSpecSuggestionsResult) :
    specLabelStep getCmd parseArgs ctx availableCommands pfx tokenType cwd env
        name precedingText token spec specLabel acc =
      mergeResult acc (specLabelDelta getCmd parseArgs ctx availableCommands pfx
        tokenType cwd env name precedingText token spec specLabel) := by
  unfold specLabelDelta specLabelStep
  cases hf : availableCommands.find? (fun c => jsStartsWith c.label specLabel) with
  | none => simp [mergeResult, emptyResult]
  | some ac =>
    by_cases ht : (token == some true) = true
    · simp [ht, mergeResult, emptyResult]
    · by_cases htt : (tokenType == TokenType.command) = true
      · by_cases hka : (ac.kind == some ItemKind.alias) = true
        · simp [ht, htt, hka, mergeResult, emptyResult]
        · simp [ht, htt, hka, mergeResult, emptyResult]
      · by_cases hgate : ((availableCommands.filter fun c =>
            specLabel == c.definitionCommand.getD c.label).any fun e =>
              jsStartsWith precedingText (e.label ++ " ")) = true
        · cases hr : getFigSpecSuggestions getCmd parseArgs spec ctx pfx cwd env name token with
          | none => simp [ht, htt, hgate, hr, mergeResult, emptyResult]
          | some r => simp [ht, htt, hgate, hr, mergeResult, emptyResult]
        · simp [ht, htt, hgate, mergeResult, emptyResult]

theorem foldl_specLabelStep (getCmd : GetCommandFn) (parseArgs : ParseArgsFn)
    (ctx : TerminalContext) (availableCommands : List CompletionResource)
    (pfx : String) (tokenType : TokenType) (cwd : Option String)
    (env : List (String × String)) (name : String) (precedingText : String)
    (token : Option Bool) :
    ∀ (l : List (FigSpec × String)) (acc : FigSpecSuggestionsResult),
      l.foldl (fun a q => specLabelStep getCmd parseArgs ctx availableCommands
          pfx tokenType cwd env name precedingText token q.1 q.2 a) acc =
        mergeResult acc (l.foldl (fun a q => specLabelStep getCmd parseArgs ctx
          availableCommands pfx tokenType cwd env name precedingText token
          q.1 q.2 a) emptyResult) := by
  intro l
  induction l with
  | nil => intro acc; simp [mergeResult_empty_right]
  | cons q l ih =>
    intro acc
    simp only [List.foldl_cons]
    rw [ih, ih (specLabelStep getCmd parseArgs ctx availableCommands pfx
      tokenType cwd env name precedingText token q.1 q.2 emptyResult)]
    rw [specLabelStep_delta, specLabelStep_delta]
    rw [mergeResult_empty_left, mergeResult_assoc]

/-- A generator with no template whose execution contract yields one
suggestion named `x`, used to exhibit the duplicated execution. -/
def dupGenerator : Generator :=
  ⟨.missing, [SpecArg.obj (.str "x") (some "a duplicated suggestion")]⟩

/-- A current argument declaring two structurally identical generators. -/
def dupArg : FigArg := ⟨none, some [dupGenerator, dupGenerator]⟩

/-- A parse result whose suggestion flags request argument values only. -/
def dupParseResult : ParseResult := ⟨⟨true, false, false⟩, some dupArg, none, none⟩

/-- The terminal context of the duplicated-generator request. -/
def dupContext : TerminalContext := ⟨"cmd ", 4⟩

/-- C1: the claim says each distinct generator definition attached to the
current argument executes at most once per completion request, and two
identical definitions execute exactly once combined. The code does not satisfy
this: although one `triggerGenerators` pass deduplicates the two identical
definitions to a single execution (first conjunct), the `addSuggestions` loop
recreates the generator state and re-triggers the full generator list once per
declared generator, so with two identical generators the definition executes
twice (second conjunct) and its suggestion is pushed twice (third conjunct). -/
theorem C1_identical_generators_execute_twice :
    (triggerGenerators [dupGenerator, dupGenerator]).map Prod.fst = [dupGenerator] ∧
    executedGenerators [dupGenerator, dupGenerator] = [dupGenerator, dupGenerator] ∧
    (collectCompletionItemResult ⟨["cmd"]⟩ dupParseResult "" dupContext (some "/") []).items =
      [createCompletionItem 4 "" "x" none (some "a duplicated suggestion") (some ItemKind.argument),
       createCompletionItem 4 "" "x" none (some "a duplicated suggestion") (some ItemKind.argument)] := by
  decide

/-- C2: a generator on the current argument declaring template `filepaths`
(resp. `folders`) makes the collected result report `filesRequested`
(resp. `foldersRequested`), and a generator declaring a template is never
invoked by the generator resolution engine, so it contributes no completion
candidates itself; filesystem enumeration is left to the caller. -/
theorem C2_template_sets_flags_without_candidates (command : Command)
    (pfx : String) (ctx : TerminalContext) (cwd : Option String)
    (env : List (String × String)) (pa : ParseResult) (ca : FigArg)
    (gens : List Generator) (g : Generator)
    (h1 : pa.suggestionFlags.args = true) (h2 : pa.currentArg = some ca)
    (h3 : ca.generators = some gens) (h4 : g ∈ gens) :
    (g.template.toList.contains Template.filepaths = true →
      (collectCompletionItemResult command pa pfx ctx cwd env).filesRequested = true) ∧
    (g.template.toList.contains Template.folders = true →
      (collectCompletionItemResult command pa pfx ctx cwd env).foldersRequested = true) ∧
    (g.template.truthy = true → g ∉ executedGenerators gens) := by
  have hgens : argumentGenerators ItemKind.argument (some pa) = gens := by
    simp [argumentGenerators, h2, h3]
  refine ⟨?_, ?_, ?_⟩
  · intro hc
    rw [collect_files, hgens]
    simp only [h1, Bool.true_and, List.any_eq_true]
    exact ⟨g, h4, hc⟩
  · intro hc
    rw [collect_folders, hgens]
    simp only [h1, Bool.true_and, List.any_eq_true]
    exact ⟨g, h4, hc⟩
  · exact fun ht => template_generator_not_executed g gens ht

/-- A template-only generator declaring both filepaths and folders. -/
def w2Generator : Generator := ⟨.multiple [.filepaths, .folders], []⟩

/-- A current argument holding the template-only generator. -/
def w2Arg : FigArg := ⟨none, some [w2Generator]⟩

/-- A parse result requesting argument-value suggestions for `w2Arg`. -/
def w2Parse : ParseResult := ⟨⟨true, false, false⟩, some w2Arg, none, none⟩

/-- Witness for C2 at a concrete template generator. -/
theorem C2_template_sets_flags_without_candidates_witness :
    w2Parse.suggestionFlags.args = true ∧ w2Generator ∈ [w2Generator] ∧
    ((w2Generator.template.toList.contains Template.filepaths = true →
      (collectCompletionItemResult ⟨["cmd"]⟩ w2Parse "" ⟨"cmd ", 4⟩ (some "/") []).filesRequested = true) ∧
     (w2Generator.template.toList.contains Template.folders = true →
      (collectCompletionItemResult ⟨["cmd"]⟩ w2Parse "" ⟨"cmd ", 4⟩ (some "/") []).foldersRequested = true) ∧
     (w2Generator.template.truthy = true → w2Generator ∉ executedGenerators [w2Generator])) :=
  ⟨by decide, by decide,
   C2_template_sets_flags_without_candidates ⟨["cmd"]⟩ "" ⟨"cmd ", 4⟩ (some "/")
     [] w2Parse w2Arg [w2Generator] w2Generator (by decide) (by decide)
     (by decide) (by decide)⟩

/-- C3: when the cancellation token is set before generator dispatch (the
token is a constant of the request), the whole request yields the empty result
at the batch level and `undefined` at the per-spec level; no partial candidate
list is surfaced. -/
theorem C3_cancellation_yields_no_partial_result (getCmd : GetCommandFn)
    (parseArgs : ParseArgsFn) (specs : List FigSpec) (ctx : TerminalContext)
    (availableCommands : List CompletionResource) (pfx : String)
    (tokenType : TokenType) (cwd : Option String) (env : List (String × String))
    (name : String) (precedingText : String) :
    getFigSuggestions getCmd parseArgs specs ctx availableCommands pfx tokenType
        cwd env name precedingText (some true) = emptyResult ∧
    ∀ spec : FigSpec, getFigSpecSuggestions getCmd parseArgs spec ctx pfx cwd
        env name (some true) = none := by
  constructor
  · have hstep : ∀ (spec : FigSpec) (specLabel : String)
        (acc : FigSpecSuggestionsResult),
        specLabelStep getCmd parseArgs ctx availableCommands pfx tokenType cwd
          env name precedingText (some true) spec specLabel acc = acc := by
      intro spec specLabel acc
      unfold specLabelStep
      cases hf : availableCommands.find? (fun c => jsStartsWith c.label specLabel) with
      | none => rfl
      | some ac => simp
    unfold getFigSuggestions
    generalize specLabelPairs specs = l
    induction l with
    | nil => rfl
    | cons q l ih =>
      simp only [List.foldl_cons]
      rw [hstep]
      exact ih
  · intro spec
    unfold getFigSpecSuggestions
    rcases hc : getCmd ctx.commandLine ctx.cursorPosition with _ | command
    · rcases hw : cwd with _ | cwdPath
      · simp
      · simp
    · rcases hw : cwd with _ | cwdPath
      · simp
      · rcases hp : parseArgs command ⟨env, cwdPath, "", name⟩ spec with _ | pa
        · simp [hp]
        · simp [hp]

/-- C4: the collected items are produced in the fixed category order
argument values (generator-produced candidates and static entries of the
current argument) when the Args flag is set, then subcommand names when the
Subcommands flag is set, then option names when the Options flag is set. -/
theorem C4_fixed_category_order (command : Command) (pa : ParseResult)
    (pfx : String) (ctx : TerminalContext) (cwd : Option String)
    (env : List (String × String)) :
    (collectCompletionItemResult command pa pfx ctx cwd env).items =
      (if pa.suggestionFlags.args then
        ((argumentGenerators ItemKind.argument (some pa)).flatMap fun _ =>
          triggeredItems ctx.cursorPosition pfx ItemKind.argument
            (argumentGenerators ItemKind.argument (some pa))) ++
        specArgsItems ctx.cursorPosition pfx ItemKind.argument
          (pa.currentArg.bind fun ca => ca.suggestions)
      else []) ++
      (if pa.suggestionFlags.subcommands then
        specArgsItems ctx.cursorPosition pfx ItemKind.method pa.completionObjSubcommands
      else []) ++
      (if pa.suggestionFlags.options then
        specArgsItems ctx.cursorPosition pfx ItemKind.flag pa.completionObjOptions
      else []) := by
  unfold collectCompletionItemResult
  cases ha : pa.suggestionFlags.args <;>
    cases hs : pa.suggestionFlags.subcommands <;>
      cases ho : pa.suggestionFlags.options <;>
        simp [ha, hs, ho, addSuggestions_spec, argumentGenerators, List.append_assoc]

theorem foldl_specLabelStep_components (getCmd : GetCommandFn)
    (parseArgs : ParseArgsFn) (ctx : TerminalContext)
    (availableCommands : List CompletionResource) (pfx : String)
    (tokenType : TokenType) (cwd : Option String)
    (env : List (String × String)) (name : String) (precedingText : String)
    (token : Option Bool) :
    ∀ l : List (FigSpec × String),
      l.foldl (fun a q => specLabelStep getCmd parseArgs ctx availableCommands
          pfx tokenType cwd env name precedingText token q.1 q.2 a) emptyResult =
        ⟨l.any fun q => (specLabelDelta getCmd parseArgs ctx availableCommands
            pfx tokenType cwd env name precedingText token q.1 q.2).filesRequested,
         l.any fun q => (specLabelDelta getCmd parseArgs ctx availableCommands
            pfx tokenType cwd env name precedingText token q.1 q.2).foldersRequested,
         l.any fun q => (specLabelDelta getCmd parseArgs ctx availableCommands
            pfx tokenType cwd env name precedingText token q.1 q.2).hasCurrentArg,
         l.flatMap fun q => (specLabelDelta getCmd parseArgs ctx availableCommands
            pfx tokenType cwd env name precedingText token q.1 q.2).items⟩ := by
  intro l
  induction l with
  | nil => simp [emptyResult]
  | cons q l ih =>
    simp only [List.foldl_cons]
    rw [foldl_specLabelStep, ih]
    rw [show specLabelStep getCmd parseArgs ctx availableCommands pfx tokenType
      cwd env name precedingText token q.1 q.2 emptyResult = specLabelDelta
      getCmd parseArgs ctx availableCommands pfx tokenType cwd env name
      precedingText token q.1 q.2 from rfl]
    simp [mergeResult]

/-- C5: each spec label is tried independently and the batch result is the
merge of the per-label contributions: items are concatenated in spec order and
the three boolean outputs are the disjunctions of the per-label outputs; a
label with no matching available command contributes nothing, and when the
command line cannot be parsed into a command the label contributes nothing in
argument position, while the remaining labels are still folded in. -/
theorem C5_specs_tried_independently_and_merged (getCmd : GetCommandFn)
    (parseArgs : ParseArgsFn) (specs : List FigSpec) (ctx : TerminalContext)
    (availableCommands : List CompletionResource) (pfx : String)
    (tokenType : TokenType) (cwd : Option String)
    (env : List (String × String)) (name : String) (precedingText : String)
    (token : Option Bool) :
    (getFigSuggestions getCmd parseArgs specs ctx availableCommands pfx
        tokenType cwd env name precedingText token =
      ⟨(specLabelPairs specs).any fun q => (specLabelDelta getCmd parseArgs ctx
          availableCommands pfx tokenType cwd env name precedingText token
          q.1 q.2).filesRequested,
       (specLabelPairs specs).any fun q => (specLabelDelta getCmd parseArgs ctx
          availableCommands pfx tokenType cwd env name precedingText token
          q.1 q.2).foldersRequested,
       (specLabelPairs specs).any fun q => (specLabelDelta getCmd parseArgs ctx
          availableCommands pfx tokenType cwd env name precedingText token
          q.1 q.2).hasCurrentArg,
       (specLabelPairs specs).flatMap fun q => (specLabelDelta getCmd parseArgs
          ctx availableCommands pfx tokenType cwd env name precedingText token
          q.1 q.2).items⟩) ∧
    (∀ (spec : FigSpec) (specLabel : String),
      availableCommands.find? (fun c => jsStartsWith c.label specLabel) = none →
        specLabelDelta getCmd parseArgs ctx availableCommands pfx tokenType cwd
          env name precedingText token spec specLabel = emptyResult) ∧
    (∀ (spec : FigSpec) (specLabel : String),
      getCmd ctx.commandLine ctx.cursorPosition = none →
      tokenType = TokenType.argument →
        specLabelDelta getCmd parseArgs ctx availableCommands pfx tokenType cwd
          env name precedingText token spec specLabel = emptyResult) := by
  refine ⟨?_, ?_, ?_⟩
  · unfold getFigSuggestions
    exact foldl_specLabelStep_components getCmd parseArgs ctx availableCommands
      pfx tokenType cwd env name precedingText token (specLabelPairs specs)
  · intro spec specLabel hf
    unfold specLabelDelta specLabelStep
    simp [hf]
  · intro spec specLabel hc htt
    subst htt
    unfold specLabelDelta specLabelStep
    cases hf : availableCommands.find? (fun c => jsStartsWith c.label specLabel) with
    | none => rfl
    | some ac =>
      by_cases ht : ((token == some true) = true)
      · simp [ht]
      · have hspec : getFigSpecSuggestions getCmd parseArgs spec ctx pfx cwd env
            name token = none := by
          unfold getFigSpecSuggestions
          rw [hc]
        simp [ht, hspec]

/-- C6: a generator-produced item whose `name` is JS-falsy (absent or the
empty string; a bare string item likewise has no `name` property) is silently
discarded: it contributes no completion item, and the items before and after
it in the batch are processed unchanged. -/
theorem C6_nameless_generator_items_discarded (cursorPosition : Nat)
    (pfx : String) (kind : ItemKind) (out1 out2 : List SpecArg) (bad : SpecArg)
    (h : specArgNameTruthy bad = false) :
    generatorResultItems cursorPosition pfx kind (out1 ++ bad :: out2) =
      generatorResultItems cursorPosition pfx kind (out1 ++ out2) ∧
    generatorResultItems cursorPosition pfx kind [bad] = [] := by
  constructor
  · unfold generatorResultItems
    rw [List.flatMap_append, List.flatMap_append, List.flatMap_cons]
    simp [h]
  · simp [generatorResultItems, h]

/-- Witness for C6 with an item whose name field is absent, surrounded by two
named items. -/
theorem C6_nameless_generator_items_discarded_witness :
    specArgNameTruthy (SpecArg.obj .missing none) = false ∧
    (generatorResultItems 4 "" ItemKind.argument
        ([SpecArg.obj (.str "a") none] ++ SpecArg.obj .missing none ::
          [SpecArg.obj (.str "b") none]) =
      generatorResultItems 4 "" ItemKind.argument
        ([SpecArg.obj (.str "a") none] ++ [SpecArg.obj (.str "b") none]) ∧
     generatorResultItems 4 "" ItemKind.argument [SpecArg.obj .missing none] = []) :=
  ⟨by decide,
   C6_nameless_generator_items_discarded 4 "" ItemKind.argument
     [SpecArg.obj (.str "a") none] [SpecArg.obj (.str "b") none]
     (SpecArg.obj .missing none) (by decide)⟩

/-- C7: an entry whose name is a list of aliases expands to one candidate per
alias (in particular an empty alias list yields none), a keyed record source
yields one candidate per key in declared order with the key as label, and a
missing or empty source contributes nothing. -/
theorem C7_source_shapes (cursorPosition : Nat) (pfx : String) (kind : ItemKind) :
    (∀ (l1 l2 : List SpecArg) (aliases : List String) (d : Option String),
      specArgsItems cursorPosition pfx kind
          (some (.list (l1 ++ SpecArg.obj (.strs aliases) d :: l2))) =
        specArgsItems cursorPosition pfx kind (some (.list l1)) ++
        (aliases.map fun label =>
          createCompletionItem cursorPosition pfx label none d (some kind)) ++
        specArgsItems cursorPosition pfx kind (some (.list l2))) ∧
    (∀ m : List (String × SpecArg),
      specArgsItems cursorPosition pfx kind (some (.record m)) =
        m.map fun q =>
          createCompletionItem cursorPosition pfx q.1 none (specArgDetail q.2)
            (some kind)) ∧
    specArgsItems cursorPosition pfx kind none = [] ∧
    specArgsItems cursorPosition pfx kind (some (.list [])) = [] ∧
    specArgsItems cursorPosition pfx kind (some (.record [])) = [] := by
  refine ⟨?_, ?_, rfl, rfl, rfl⟩
  · intro l1 l2 aliases d
    simp only [specArgsItems]
    rw [List.flatMap_append, List.flatMap_cons]
    cases aliases with
    | nil => simp [getFigSuggestionLabel, getFigSuggestionLabelOfName, specArgDetail]
    | cons a as => simp [getFigSuggestionLabel, getFigSuggestionLabelOfName, specArgDetail]
  · intro m
    rfl

/-- A concrete shell parser that never recognises a command, for witnesses. -/
def wGetCmdNone : GetCommandFn := fun _ _ => none

/-- A concrete argument parser that never matches a spec, for witnesses. -/
def wParseNone : ParseArgsFn := fun _ _ _ => none

/-- Witness for C5 at a concrete unmatched label: a spec label with no
matching available command contributes the empty result. -/
theorem C5_specs_tried_independently_and_merged_witness :
    ([] : List CompletionResource).find? (fun c => jsStartsWith c.label "git") = none ∧
    specLabelDelta wGetCmdNone wParseNone ⟨"git ", 4⟩ [] "" TokenType.argument
      (some "/") [] "sh" "git " none ⟨.str "git", none⟩ "git" = emptyResult :=
  ⟨rfl,
   (C5_specs_tried_independently_and_merged wGetCmdNone wParseNone
     [⟨.str "git", none⟩] ⟨"git ", 4⟩ [] "" TokenType.argument (some "/") []
     "sh" "git " none).2.1 ⟨.str "git", none⟩ "git" rfl⟩

/-- C8: the pipeline is a pure function of its inputs: two calls with
identical specs, terminal context, available commands, prefix, token type,
working directory, environment, process name, preceding text and cancellation
token (and the same external parser collaborators) return identical results,
flags and item order included. -/
theorem C8_pipeline_deterministic (getCmd1 getCmd2 : GetCommandFn)
    (parseArgs1 parseArgs2 : ParseArgsFn) (specs1 specs2 : List FigSpec)
    (ctx1 ctx2 : TerminalContext) (avail1 avail2 : List CompletionResource)
    (pfx1 pfx2 : String) (tt1 tt2 : TokenType) (cwd1 cwd2 : Option String)
    (env1 env2 : List (String × String)) (name1 name2 : String)
    (prec1 prec2 : String) (tok1 tok2 : Option Bool)
    (h1 : getCmd1 = getCmd2) (h2 : parseArgs1 = parseArgs2)
    (h3 : specs1 = specs2) (h4 : ctx1 = ctx2) (h5 : avail1 = avail2)
    (h6 : pfx1 = pfx2) (h7 : tt1 = tt2) (h8 : cwd1 = cwd2) (h9 : env1 = env2)
    (h10 : name1 = name2) (h11 : prec1 = prec2) (h12 : tok1 = tok2) :
    getFigSuggestions getCmd1 parseArgs1 specs1 ctx1 avail1 pfx1 tt1 cwd1 env1
        name1 prec1 tok1 =
      getFigSuggestions getCmd2 parseArgs2 specs2 ctx2 avail2 pfx2 tt2 cwd2
        env2 name2 prec2 tok2 := by
  subst h1 h2 h3 h4 h5 h6 h7 h8 h9 h10 h11 h12
  rfl

/-- Witness for C8 at a concrete repeated invocation. -/
theorem C8_pipeline_deterministic_witness :
    getFigSuggestions wGetCmdNone wParseNone [⟨.str "git", none⟩] ⟨"git ", 4⟩
        [⟨"git", none, none, none⟩] "" TokenType.argument (some "/") [] "sh"
        "git " none =
      getFigSuggestions wGetCmdNone wParseNone [⟨.str "git", none⟩] ⟨"git ", 4⟩
        [⟨"git", none, none, none⟩] "" TokenType.argument (some "/") [] "sh"
        "git " none :=
  C8_pipeline_deterministic wGetCmdNone wGetCmdNone wParseNone wParseNone
    [⟨.str "git", none⟩] [⟨.str "git", none⟩] ⟨"git ", 4⟩ ⟨"git ", 4⟩
    [⟨"git", none, none, none⟩] [⟨"git", none, none, none⟩] "" ""
    TokenType.argument TokenType.argument (some "/") (some "/") [] [] "sh" "sh"
    "git " "git " none none rfl rfl rfl rfl rfl rfl rfl rfl rfl rfl rfl rfl

/-- C9: in argument position a spec label yields option, argument or
subcommand suggestions only when the preceding text starts with a matched
command or alias label followed by a space; when that check fails the label
contributes no items and sets no flags. -/
theorem C9_preceding_text_gate (getCmd : GetCommandFn) (parseArgs : ParseArgsFn)
    (ctx : TerminalContext) (availableCommands : List CompletionResource)
    (pfx : String) (cwd : Option String) (env : List (String × String))
    (name : String) (precedingText : String) (token : Option Bool)
    (spec : FigSpec) (specLabel : String)
    (hgate : ((availableCommands.filter fun c =>
        specLabel == c.definitionCommand.getD c.label).any fun e =>
          jsStartsWith precedingText (e.label ++ " ")) = false) :
    specLabelDelta getCmd parseArgs ctx availableCommands pfx TokenType.argument
      cwd env name precedingText token spec specLabel = emptyResult := by
  unfold specLabelDelta specLabelStep
  cases hf : availableCommands.find? (fun c => jsStartsWith c.label specLabel) with
  | none => rfl
  | some ac =>
    by_cases ht : ((token == some true) = true)
    · simp [ht]
    · simp [ht, hgate]

/-- Witness for C9 at a concrete failing preceding text. -/
theorem C9_preceding_text_gate_witness :
    (([⟨"git", none, none, none⟩] : List CompletionResource).filter fun c =>
      "git" == c.definitionCommand.getD c.label).any (fun e =>
        jsStartsWith "other " (e.label ++ " ")) = false ∧
    specLabelDelta wGetCmdNone wParseNone ⟨"git ", 4⟩
      [⟨"git", none, none, none⟩] "" TokenType.argument (some "/") [] "sh"
      "other " none ⟨.str "git", none⟩ "git" = emptyResult :=
  ⟨by decide,
   C9_preceding_text_gate wGetCmdNone wParseNone ⟨"git ", 4⟩
     [⟨"git", none, none, none⟩] "" (some "/") [] "sh" "other " none
     ⟨.str "git", none⟩ "git" (by decide)⟩

/-- C10: in command position a spec label never requests files or folders and
never reports a current argument (no spec parsing or generator resolution
happens), it contributes nothing when no available command matches, and with a
matching available command it contributes exactly one candidate carrying only
the label, the spec description and the command detail, or nothing at all when
the matched available command is an alias. -/
theorem C10_command_position_single_item (getCmd : GetCommandFn)
    (parseArgs : ParseArgsFn) (ctx : TerminalContext)
    (availableCommands : List CompletionResource) (pfx : String)
    (cwd : Option String) (env : List (String × String)) (name : String)
    (precedingText : String) (token : Option Bool) (spec : FigSpec)
    (specLabel : String) :
    ((specLabelDelta getCmd parseArgs ctx availableCommands pfx
        TokenType.command cwd env name precedingText token spec
        specLabel).filesRequested = false ∧
     (specLabelDelta getCmd parseArgs ctx availableCommands pfx
        TokenType.command cwd env name precedingText token spec
        specLabel).foldersRequested = false ∧
     (specLabelDelta getCmd parseArgs ctx availableCommands pfx
        TokenType.command cwd env name precedingText token spec
        specLabel).hasCurrentArg = false) ∧
    (availableCommands.find? (fun c => jsStartsWith c.label specLabel) = none →
      (specLabelDelta getCmd parseArgs ctx availableCommands pfx
        TokenType.command cwd env name precedingText token spec
        specLabel).items = []) ∧
    (∀ ac : CompletionResource,
      availableCommands.find? (fun c => jsStartsWith c.label specLabel) = some ac →
      (token == some true) = false →
      (specLabelDelta getCmd parseArgs ctx availableCommands pfx
          TokenType.command cwd env name precedingText token spec
          specLabel).items =
        if ac.kind == some ItemKind.alias then []
        else [createCompletionItem ctx.cursorPosition pfx specLabel
          (some (getFixSuggestionDescription spec)) ac.detail none]) := by
  unfold specLabelDelta specLabelStep
  cases hf : availableCommands.find? (fun c => jsStartsWith c.label specLabel) with
  | none =>
    refine ⟨⟨rfl, rfl, rfl⟩, fun _ => rfl, ?_⟩
    intro ac hac
    exact absurd hac (by simp)
  | some ac =>
    by_cases ht : ((token == some true) = true)
    · simp [ht, emptyResult]
    · by_cases hka : ac.kind = some ItemKind.alias <;>
        simp [ht, hka, emptyResult]

/-- Witness for C10 at a concrete matching non-alias available command. -/
theorem C10_command_position_single_item_witness :
    ([⟨"git", none, some "version control", none⟩] :
        List CompletionResource).find? (fun c => jsStartsWith c.label "git") =
      some ⟨"git", none, some "version control", none⟩ ∧
    ((none : Option Bool) == some true) = false ∧
    (specLabelDelta wGetCmdNone wParseNone ⟨"git", 3⟩
        [⟨"git", none, some "version control", none⟩] "" TokenType.command
        (some "/") [] "sh" "" none ⟨.str "git", some "a vcs"⟩ "git").items =
      (if (⟨"git", none, some "version control", none⟩ :
            CompletionResource).kind == some ItemKind.alias then []
       else [createCompletionItem 3 "" "git"
         (some (getFixSuggestionDescription ⟨.str "git", some "a vcs"⟩))
         (⟨"git", none, some "version control", none⟩ :
           CompletionResource).detail none]) :=
  ⟨by decide, by decide,
   (C10_command_position_single_item wGetCmdNone wParseNone ⟨"git", 3⟩
     [⟨"git", none, some "version control", none⟩] "" (some "/") [] "sh" ""
     none ⟨.str "git", some "a vcs"⟩ "git").2.2
     ⟨"git", none, some "version control", none⟩ (by decide) (by decide)⟩

end TermFig
